import Mathlib

/-!
Verification development for the invoice-extraction and fraud-detection
repository.  The Python sources under `processors/` are shallowly embedded:
pure string manipulation is translated to executable Lean functions over
`List Char` / `String`, the regular expressions used by the code are
translated to deterministic matchers (they are simple enough that greedy
matching with the occasional bounded backtracking is exact), machine-learning
models and external libraries (sklearn's IsolationForest, json.loads, fitz,
pytesseract, MarkItDown, the DeepSeek API) are oracles passed as parameters,
and the one place where the Python code can raise an uncaught exception is
modelled with `Except`.
-/

namespace Invoices

/-! ## Python string primitives -/

/-- Whitespace characters recognised by Python's `str.strip` and by `\s`
in the regular expressions of the source (ASCII range). -/
def isPySpace (c : Char) : Bool :=
  c = ' ' || c = '\t' || c = '\n' || c = '\r' || c = '\x0b' || c = '\x0c'

/-- ASCII decimal digit, modelling `\d` as used on the (ASCII) OCR text. -/
def isDigitChar (c : Char) : Bool :=
  48 ≤ c.toNat && c.toNat ≤ 57

/-- Python `str.strip()`. -/
def pyStrip (s : String) : String :=
  String.mk (((s.data.dropWhile isPySpace).reverse.dropWhile isPySpace).reverse)

/-- Python `str.lower()` (ASCII case folding suffices for the keyword sets
used by the source). -/
def pyLower (s : String) : String :=
  String.mk (s.data.map Char.toLower)

/-- Substring test, modelling Python's `pat in hay`. -/
def listContainsSub (pat : List Char) : List Char → Bool
  | [] => pat.isEmpty
  | c :: rest => pat.isPrefixOf (c :: rest) || listContainsSub pat rest

/-- Python `pat in hay` on strings. -/
def containsSub (hay pat : String) : Bool :=
  listContainsSub pat.data hay.data

/-- Python `str.splitlines()` (the line boundaries occurring in this
pipeline: `\n`, `\r`, `\r\n`). -/
def pySplitlinesAux : List Char → List Char → List String
  | [], acc => if acc.isEmpty then [] else [String.mk acc.reverse]
  | '\r' :: '\n' :: rest, acc => String.mk acc.reverse :: pySplitlinesAux rest []
  | '\r' :: rest, acc => String.mk acc.reverse :: pySplitlinesAux rest []
  | '\n' :: rest, acc => String.mk acc.reverse :: pySplitlinesAux rest []
  | c :: rest, acc => pySplitlinesAux rest (c :: acc)

/-- Python `str.splitlines()`. -/
def pySplitlines (s : String) : List String :=
  pySplitlinesAux s.data []

/-- Python `str.replace(",", ".")` (single-character pattern, so a map). -/
def replaceComma (cs : List Char) : List Char :=
  cs.map (fun c => if c = ',' then '.' else c)

/-- Numeric value of a list of decimal digit characters (Python `int` on
digit strings; empty list gives 0, matching `int`-of-fraction-part use). -/
def natOfDigits : List Char → Nat
  | [] => 0
  | c :: rest => (c.toNat - 48) * 10 ^ rest.length + natOfDigits rest

/-- Python `float()` on the decimal literals produced by the matchers of
this file (shape `digits` or `digits.digits`, the only shapes the source
ever feeds to `float`).  The exact binary rounding of Python floats is
irrelevant here: every literal the source converts has at most two decimal
places, so the rational value is what the code computes with. -/
def pyFloatCore (cs : List Char) : ℚ :=
  let intPart := cs.takeWhile (· ≠ '.')
  let rest := cs.dropWhile (· ≠ '.')
  match rest with
  | [] => (natOfDigits intPart : ℚ)
  | _ :: frac => (natOfDigits intPart : ℚ) + (natOfDigits frac : ℚ) / (10 : ℚ) ^ frac.length

/-- Python `float()` on a string (see `pyFloatCore`). -/
def pyFloatQ (s : String) : ℚ := pyFloatCore s.data

/-- Generic `re.search` position scan: try the anchored matcher at every
start position, left to right (leftmost match wins, as in Python `re`). -/
def scanPositions (m : List Char → Option α) : List Char → Option α
  | [] => m []
  | c :: rest =>
    match m (c :: rest) with
    | some r => some r
    | none => scanPositions m rest

/-! ## Regular-expression matchers of `extract_invoice_data` -/

/-- Anchored matcher for `\d+`: a nonempty maximal digit run. -/
def matchDigitsAt (cs : List Char) : Option String :=
  match cs with
  | c :: rest => if isDigitChar c then some (String.mk (c :: rest.takeWhile isDigitChar)) else none
  | [] => none

/-- `re.search(r'\d+', s)`. -/
def searchDigits (s : String) : Option String :=
  scanPositions matchDigitsAt s.data

/-- Anchored matcher for `[\d-]+`: a nonempty maximal run of digits and
hyphens. -/
def matchDigitsDashAt (cs : List Char) : Option String :=
  match cs with
  | c :: rest =>
    if isDigitChar c || c = '-' then
      some (String.mk (c :: rest.takeWhile (fun d => isDigitChar d || d = '-')))
    else none
  | [] => none

/-- `re.search(r'[\d-]+', s)`. -/
def searchDigitsDash (s : String) : Option String :=
  scanPositions matchDigitsDashAt s.data

/-- ASCII upper-case letter, modelling `[A-Z]`. -/
def isUpperChar (c : Char) : Bool :=
  65 ≤ c.toNat && c.toNat ≤ 90

/-- ASCII upper-case letter or digit, modelling `[A-Z0-9]`. -/
def isUpperDigitChar (c : Char) : Bool :=
  isUpperChar c || isDigitChar c

/-- Anchored matcher for the IBAN shape `[A-Z]{2}\d{2}[A-Z0-9]{10,30}`:
two letters, two digits, then a greedy 10–30 character alphanumeric run. -/
def matchIbanAt (cs : List Char) : Option String :=
  match cs with
  | a :: b :: c :: d :: rest =>
    if isUpperChar a && isUpperChar b && isDigitChar c && isDigitChar d then
      let run := (rest.takeWhile isUpperDigitChar).take 30
      if run.length < 10 then none
      else some (String.mk (a :: b :: c :: d :: run))
    else none
  | _ => none

/-- `re.search(r'[A-Z]{2}\d{2}[A-Z0-9]{10,30}', s)`. -/
def searchIban (s : String) : Option String :=
  scanPositions matchIbanAt s.data

/-- Date separators: dot, slash, or hyphen. -/
def isDateSep (c : Char) : Bool :=
  c = '.' || c = '/' || c = '-'

/-- Take exactly `k` leading digits followed by a separator, returning the
taken digits, the separator, and the remainder. -/
def takeKDigitsSep (k : Nat) (cs : List Char) : Option (List Char × Char × List Char) :=
  let ds := cs.take k
  if ds.length = k && ds.all isDigitChar then
    match cs.drop k with
    | s :: rest => if isDateSep s then some (ds, s, rest) else none
    | [] => none
  else none

/-- Take `\d{1,2}` greedily (two digits preferred) followed by a separator. -/
def take12DigitsSep (cs : List Char) : Option (List Char × Char × List Char) :=
  match takeKDigitsSep 2 cs with
  | some r => some r
  | none => takeKDigitsSep 1 cs

/-- Anchored matcher for the first date alternative
(1-2 digits, separator, 1-2 digits, separator, 4 digits). -/
def matchDateAlt1 (cs : List Char) : Option String :=
  match take12DigitsSep cs with
  | none => none
  | some (d1, s1, r1) =>
    match take12DigitsSep r1 with
    | none => none
    | some (d2, s2, r2) =>
      let ys := r2.take 4
      if ys.length = 4 && ys.all isDigitChar then
        some (String.mk (d1 ++ s1 :: d2 ++ s2 :: ys))
      else none

/-- Take `\d{1,2}` greedily with nothing required after it. -/
def take12Digits (cs : List Char) : Option (List Char) :=
  let ds := cs.take 2
  if ds.length = 2 && ds.all isDigitChar then some ds
  else
    let ds1 := cs.take 1
    if ds1.length = 1 && ds1.all isDigitChar then some ds1 else none

/-- Anchored matcher for the second date alternative
(4 digits, separator, 1-2 digits, separator, 1-2 digits). -/
def matchDateAlt2 (cs : List Char) : Option String :=
  let ys := cs.take 4
  if ys.length = 4 && ys.all isDigitChar then
    match cs.drop 4 with
    | s1 :: r1 =>
      if isDateSep s1 then
        match take12DigitsSep r1 with
        | none => none
        | some (d1, s2, r2) =>
          match take12Digits r2 with
          | none => none
          | some d2 => some (String.mk (ys ++ s1 :: d1 ++ s2 :: d2))
      else none
    | [] => none
  else none

/-- Anchored matcher for the date pattern
of the source: the two alternatives of `matchDateAlt1` and `matchDateAlt2`,
first alternative preferred, as in Python `re`. -/
def matchDateAt (cs : List Char) : Option String :=
  match matchDateAlt1 cs with
  | some r => some r
  | none => matchDateAlt2 cs

/-- `re.search` with the date pattern. -/
def searchDate (s : String) : Option String :=
  scanPositions matchDateAt s.data

/-- Consume the optional dollar sign `\$?`. -/
def skipDollar (cs : List Char) : List Char :=
  match cs with
  | '$' :: r => r
  | _ => cs

/-- Consume the optional single whitespace `\s?`. -/
def skipOneWs (cs : List Char) : List Char :=
  match cs with
  | c :: r => if isPySpace c then r else cs
  | [] => cs

/-- Anchored matcher for the total-amount pattern
`\$?\s?(\d{1,3}(?:[.,]\d{2})?)`, returning capture group 1. -/
def matchTotalAt (cs : List Char) : Option (List Char) :=
  let cs2 := skipOneWs (skipDollar cs)
  let ds := (cs2.takeWhile isDigitChar).take 3
  if ds.isEmpty then none
  else
    match cs2.drop ds.length with
    | s :: a :: b :: _ =>
      if (s = '.' || s = ',') && isDigitChar a && isDigitChar b then some (ds ++ [s, a, b])
      else some ds
    | _ => some ds

/-- `re.search(r'\$?\s?(\d{1,3}(?:[.,]\d{2})?)', s)`, group 1. -/
def searchTotal (s : String) : Option (List Char) :=
  scanPositions matchTotalAt s.data

/-- Try to match `\d{k}[.,]\d{2}` at the head for one fixed `k`. -/
def qtyAtK (k : Nat) (cs : List Char) : Option (List Char) :=
  let ds := cs.take k
  if ds.length = k && ds.all isDigitChar then
    match cs.drop k with
    | s :: a :: b :: _ =>
      if (s = '.' || s = ',') && isDigitChar a && isDigitChar b then some (ds ++ [s, a, b])
      else none
    | _ => none
  else none

/-- Anchored matcher for `\d{1,3}[.,]\d{2}` (greedy on the digit count,
with the backtracking Python `re` performs). -/
def matchQtyAt (cs : List Char) : Option (List Char) :=
  match qtyAtK 3 cs with
  | some r => some r
  | none =>
    match qtyAtK 2 cs with
    | some r => some r
    | none => qtyAtK 1 cs

/-- `re.search(r'(\d{1,3}[.,]\d{2})', s)`. -/
def searchQty (s : String) : Option (List Char) :=
  scanPositions matchQtyAt s.data

/-- Whether `re.search(r'\d{1,3}[.,]\d{2}', s)` finds a match. -/
def hasQtyPattern (s : String) : Bool :=
  (searchQty s).isSome

/-- Full-string match for `^\d{1,3}[.,]\d{2}$`: a maximal leading digit
run of length 1–3, a separator, exactly two digits, end of string. -/
def isQtyExact (cs : List Char) : Bool :=
  let ds := cs.takeWhile isDigitChar
  (1 ≤ ds.length && ds.length ≤ 3) &&
    (match cs.drop ds.length with
     | [s, a, b] => (s = '.' || s = ',') && isDigitChar a && isDigitChar b
     | _ => false)

/-- `re.sub(r'(\d{1,3}[.,]\d{2})', '', s)`: delete every non-overlapping
leftmost match, continuing after each match (fuel = input length, which
suffices since every match consumes at least four characters). -/
def removeAllQtyAux : Nat → List Char → List Char
  | 0, cs => cs
  | _ + 1, [] => []
  | fuel + 1, c :: rest =>
    match matchQtyAt (c :: rest) with
    | some g => removeAllQtyAux fuel ((c :: rest).drop g.length)
    | none => c :: removeAllQtyAux fuel rest

/-- `re.sub` with the quantity pattern (see `removeAllQtyAux`). -/
def removeAllQty (cs : List Char) : List Char :=
  removeAllQtyAux cs.length cs

/-! ## The heuristic field extractor `extract_invoice_data` -/

/-- A line item built by `extract_invoice_data`; `unit_price` stays `None`
until it is back-filled from the collected net-price list. -/
structure HItem where
  description : String
  quantity : ℚ
  unit_price : Option ℚ
  deriving DecidableEq

/-- The invoice dictionary built by `extract_invoice_data`; an absent
key is `none`. -/
structure HRecord where
  invoice_number : Option String := none
  supplier_name : Option String := none
  invoice_date : Option String := none
  service_date : Option String := none
  due_date : Option String := none
  tax_id : Option String := none
  bank_account : Option String := none
  total_amount : Option ℚ := none
  line_items : Option (List HItem) := none
  deriving DecidableEq

/-- The helper `get_next_nonempty(index)`: the first following line whose
stripped form is nonempty, stripped; `""` if there is none. -/
def getNextNonempty (lines : List String) (i : Nat) : String :=
  match (lines.drop (i + 1)).find? (fun l => pyStrip l ≠ "") with
  | some l => pyStrip l
  | none => ""

/-- Keywords that make the forward scan for an invoice date skip a line. -/
def dateSkipKeywords : List String :=
  ["tax id", "iban", "client", "total", "description", "qty", "summary", "items"]

/-- The forward scan of the invoice-date branch: walk the later lines,
skip any line whose lowered stripped form contains a competing keyword,
and return the first date-shaped match. -/
def dateScanForward : List String → Option String
  | [] => none
  | l :: rest =>
    let fl := pyStrip l
    if dateSkipKeywords.any (fun kw => containsSub (pyLower fl) kw) then dateScanForward rest
    else
      match searchDate fl with
      | some g => some g
      | none => dateScanForward rest

/-- The total-amount probe: search the current (raw) line first, then up
to the next three lines. -/
def searchTotalLines (lines : List String) (i : Nat) (line : String) : Option (List Char) :=
  match searchTotal line with
  | some g => some g
  | none => ((lines.drop (i + 1)).take 3).findSome? searchTotal

/-- One iteration of the field-extraction loop of `extract_invoice_data`
(the `elif` chain over the keyword classes, in source order). -/
def fieldStep (lines : List String) (i : Nat) (line : String) (inv : HRecord) : HRecord :=
  let lineClean := pyLower (pyStrip line)
  let combined := line ++ " " ++ getNextNonempty lines i
  if containsSub lineClean "invoice no" || containsSub lineClean "invoice number" then
    match searchDigits combined with
    | some g => { inv with invoice_number := some g }
    | none => inv
  else if containsSub lineClean "supplier" || containsSub lineClean "seller" then
    { inv with supplier_name := some (getNextNonempty lines i) }
  else if containsSub (pyLower combined) "invoice date" || containsSub (pyLower combined) "date of issue"
      || containsSub (pyLower combined) "issue date" || containsSub (pyLower combined) "date:" then
    match (match searchDate combined with
           | some g => some g
           | none => dateScanForward (lines.drop (i + 1))) with
    | some g => { inv with invoice_date := some g }
    | none => inv
  else if containsSub lineClean "service period" then
    match searchDate (pyStrip combined) with
    | some g => { inv with service_date := some g }
    | none => inv
  else if containsSub lineClean "due date" then
    match searchDate (pyStrip combined) with
    | some g => { inv with due_date := some g }
    | none => inv
  else if containsSub lineClean "tax id" && inv.tax_id.isNone then
    match searchDigitsDash combined with
    | some g => { inv with tax_id := some g }
    | none => inv
  else if containsSub lineClean "bank account" || containsSub lineClean "iban" then
    match searchIban combined with
    | some g => { inv with bank_account := some g }
    | none => inv
  else if containsSub lineClean "total amount" || containsSub lineClean "total" then
    match searchTotalLines lines i line with
    | some g => { inv with total_amount := some (pyFloatCore (replaceComma g)) }
    | none => inv
  else inv

/-- Whether a stripped line starts a numbered item, `re.match(r'^\d+\.\s', line)`:
a maximal nonempty digit run, a dot, one whitespace character. -/
def matchesOrdinal (s : String) : Bool :=
  let ds := s.data.takeWhile isDigitChar
  !ds.isEmpty &&
    (match s.data.drop ds.length with
     | '.' :: w :: _ => isPySpace w
     | _ => false)

/-- Lazy split for the strict item pattern: after the ordinal prefix, find
the shortest nonempty description such that one whitespace character and a
quantity token anchored at end of line follow (the lazy group of
`^\d+\.\s(.+?)\s(\d{1,3}[.,]\d{2})$`). -/
def findSplitMin (acc : List Char) : List Char → Option (String × String)
  | [] => none
  | c :: rest =>
    let acc1 := acc ++ [c]
    match rest with
    | w :: tail =>
      if isPySpace w && isQtyExact tail then some (String.mk acc1, String.mk tail)
      else findSplitMin acc1 rest
    | [] => none

/-- Full-line match for the strict item pattern, returning the description
and quantity capture groups. -/
def matchFullOrdinal (s : String) : Option (String × String) :=
  let ds := s.data.takeWhile isDigitChar
  if ds.isEmpty then none
  else
    match s.data.drop ds.length with
    | '.' :: w :: rest => if isPySpace w then findSplitMin [] rest else none
    | _ => none

/-- Python `line.split('.', 1)[1]`: everything after the first dot.  The
source only calls it on lines that `matchesOrdinal` accepted, so a dot is
present; on a dot-free string this total model returns `""`. -/
def afterFirstDot (s : String) : String :=
  match s.data.dropWhile (· ≠ '.') with
  | _ :: rest => String.mk rest
  | [] => ""

/-- Build the new current item when a numbered line is seen: the strict
pattern first, otherwise the fallback that strips quantity-shaped
substrings out of the text after the first dot. -/
def parseOrdinalLine (line : String) : HItem :=
  match matchFullOrdinal line with
  | some (desc, qty) =>
    { description := pyStrip desc
      quantity := pyFloatCore (replaceComma qty.data)
      unit_price := none }
  | none =>
    let desc0 := pyStrip (afterFirstDot line)
    let qty := match searchQty desc0 with
      | some g => pyFloatCore (replaceComma g)
      | none => 1
    { description := pyStrip (String.mk (removeAllQty desc0.data))
      quantity := qty
      unit_price := none }

/-- Keywords that stop a non-matching line from being appended to the
current item's description. -/
def contKeywords : List String :=
  ["summary", "vat", "net price", "gross", "client", "$"]

/-- State of the line-item scanning loop: accumulated items, the open
item (`current_item`, `none` for the empty dict), the collected net
prices, and the `collecting_prices` flag. -/
structure LIState where
  items : List HItem
  current : Option HItem
  netPrices : List ℚ
  collecting : Bool

/-- One iteration of the line-item loop of `extract_invoice_data`. -/
def liStep (numLines : Nat) (st : LIState) (p : Nat × String) : LIState :=
  let i := p.1
  let line := pyStrip p.2
  if matchesOrdinal line then
    let items1 := match st.current with
      | some it => st.items ++ [it]
      | none => st.items
    { st with items := items1, current := some (parseOrdinalLine line) }
  else if st.current.isSome && !hasQtyPattern line
      && !(contKeywords.any (fun kw => containsSub (pyLower line) kw)) then
    match st.current with
    | some it => { st with current := some { it with description := it.description ++ " " ++ pyStrip line } }
    | none => st
  else if containsSub (pyLower line) "net price" then
    { st with collecting := true }
  else if st.collecting && isQtyExact line.data then
    { st with netPrices := st.netPrices ++ [pyFloatCore (replaceComma line.data)] }
  else if st.current.isSome && (containsSub (pyLower line) "summary" || i = numLines - 1) then
    match st.current with
    | some it => { st with items := st.items ++ [it], current := none }
    | none => st
  else st

/-- Back-fill `unit_price` positionally from the collected net prices. -/
def backfillPrices (items : List HItem) (prices : List ℚ) : List HItem :=
  items.enum.map (fun p => if p.1 < prices.length then { p.2 with unit_price := some (prices.getD p.1 0) } else p.2)

/-- The complete line-item phase: scan all lines, close the open item at
the end, and back-fill prices. -/
def lineItemsPhase (lines : List String) : List HItem :=
  let st := lines.enum.foldl (liStep lines.length) ⟨[], none, [], false⟩
  let items := st.items ++ (match st.current with
    | some it => [it]
    | none => [])
  backfillPrices items st.netPrices

/-- `extract_invoice_data`: the field loop over all lines followed by the
line-item phase.  The body's `try` never reaches its `except` branch (no
operation in it can raise: every `float` call is on a regex-matched
decimal and every subscript is guarded), so the embedding is total and
the `return {}` path is dead code. -/
def extractInvoiceData (text : String) : HRecord :=
  let lines := pySplitlines text
  let inv1 := lines.enum.foldl (fun inv p => fieldStep lines p.1 p.2 inv) {}
  { inv1 with line_items := some (lineItemsPhase lines) }

/-! ## Dates and `datetime.strptime(s, "%m/%d/%Y")` -/

/-- A calendar date as compared by the analyzer (`datetime.date`). -/
structure Date where
  year : Nat
  month : Nat
  day : Nat
  deriving DecidableEq

/-- Gregorian leap year. -/
def isLeapYear (y : Nat) : Bool :=
  y % 4 = 0 && (y % 100 ≠ 0 || y % 400 = 0)

/-- Days in a month (month assumed in 1–12). -/
def daysInMonth (y m : Nat) : Nat :=
  if m = 2 then (if isLeapYear y then 29 else 28)
  else if m = 4 || m = 6 || m = 9 || m = 11 then 30
  else 31

/-- `date` ordering used by `contract_start <= d <= contract_end`. -/
def dateLe (a b : Date) : Bool :=
  a.year < b.year ||
    (a.year = b.year &&
      (a.month < b.month || (a.month = b.month && a.day ≤ b.day)))

/-- Split a character list on a separator character. -/
def splitOnChar (sep : Char) : List Char → List (List Char)
  | [] => [[]]
  | c :: rest =>
    if c = sep then [] :: splitOnChar sep rest
    else
      match splitOnChar sep rest with
      | g :: gs => (c :: g) :: gs
      | [] => [[c]]

/-- CPython `_strptime`'s `%m` token: 1–2 digits, value 1–12. -/
def parseMonthTok (cs : List Char) : Option Nat :=
  if cs.all isDigitChar && 1 ≤ cs.length && cs.length ≤ 2 then
    let v := natOfDigits cs
    if 1 ≤ v && v ≤ 12 then some v else none
  else none

/-- CPython `_strptime`'s `%d` token: 1–2 digits, value 1–31. -/
def parseDayTok (cs : List Char) : Option Nat :=
  if cs.all isDigitChar && 1 ≤ cs.length && cs.length ≤ 2 then
    let v := natOfDigits cs
    if 1 ≤ v && v ≤ 31 then some v else none
  else none

/-- CPython `_strptime`'s `%Y` token: exactly 4 digits; `datetime`
additionally requires the year to be at least `MINYEAR = 1`. -/
def parseYearTok (cs : List Char) : Option Nat :=
  if cs.all isDigitChar && cs.length = 4 then
    let v := natOfDigits cs
    if 1 ≤ v then some v else none
  else none

/-- `datetime.strptime(s, "%m/%d/%Y").date()`: the whole string must be
month-token `/` day-token `/` year-token, and the day must exist in the
month (otherwise `datetime` raises and the analyzer's bare `except`
treats the date as unparseable). -/
def parseMDY (s : String) : Option Date :=
  match splitOnChar '/' s.data with
  | [ms, ds, ys] =>
    match parseMonthTok ms, parseDayTok ds, parseYearTok ys with
    | some m, some d, some y =>
      if d ≤ daysInMonth y m then some ⟨y, m, d⟩ else none
    | _, _, _ => none
  | _ => none

/-! ## The fraud analyzer `analyze_invoice_for_fraud` -/

/-- A line item as the analyzer reads it: `none` stands for a key that is
absent or maps to `None` (the two are indistinguishable to every check the
analyzer performs: `in`-plus-truthiness for the threshold, NaN for the
DataFrame). -/
structure AItem where
  description : String
  quantity : Option ℚ
  unit_price : Option ℚ
  deriving DecidableEq

/-- A row of `anomalous_items`: a line item together with the
`anomaly_score` and `is_anomaly` columns added from the model. -/
structure AnomItem where
  item : AItem
  anomaly_score : ℚ
  is_anomaly : Int
  deriving DecidableEq

/-- An invoice record as the analyzer reads it; `none` is an absent key. -/
structure Invoice where
  invoice_number : Option String := none
  supplier_name : Option String := none
  invoice_date : Option String := none
  tax_id : Option String := none
  bank_account : Option String := none
  total_amount : Option ℚ := none
  line_items : Option (List AItem) := none
  warnings : Option (List String) := none
  anomalous_items : Option (List AnomItem) := none
  deriving DecidableEq

/-- Python `not invoice` for a dict: true exactly when the dict is empty,
i.e. when no key is present. -/
def invoiceIsEmpty (inv : Invoice) : Bool :=
  inv.invoice_number.isNone && inv.supplier_name.isNone && inv.invoice_date.isNone &&
    inv.tax_id.isNone && inv.bank_account.isNone && inv.total_amount.isNone &&
    inv.line_items.isNone && inv.warnings.isNone && inv.anomalous_items.isNone

/-- The analyzer's list of required fields, in source order. -/
def requiredFields : List String :=
  ["invoice_number", "supplier_name", "invoice_date", "tax_id", "bank_account", "total_amount"]

/-- Key-membership test `field in invoice` for the six required fields. -/
def hasField (inv : Invoice) (f : String) : Bool :=
  if f = "invoice_number" then inv.invoice_number.isSome
  else if f = "supplier_name" then inv.supplier_name.isSome
  else if f = "invoice_date" then inv.invoice_date.isSome
  else if f = "tax_id" then inv.tax_id.isSome
  else if f = "bank_account" then inv.bank_account.isSome
  else if f = "total_amount" then inv.total_amount.isSome
  else false

/-- `[field for field in required_fields if field not in invoice]`. -/
def missingFields (inv : Invoice) : List String :=
  requiredFields.filter (fun f => !hasField inv f)

/-- The `IsolationForest(contamination=0.25, random_state=42)` model,
abstracted as an oracle: `score` is `decision_function` and `predict` is
`predict` on the list of `(unit_price, quantity)` pairs it was fitted on
(sklearn returns one output per input row). -/
structure MlModel where
  score : List (ℚ × ℚ) → List ℚ
  predict : List (ℚ × ℚ) → List Int

/-- The uncaught exception the analyzer can raise: pandas'
`ValueError: Length of values does not match length of index`, raised by
`df_items['anomaly_score'] = model.decision_function(df_numeric)` when
`dropna` removed rows. -/
inductive PyErr where
  | valueError
  deriving DecidableEq

/-- The tagged result dict of the analyzer; `invoice` is absent (`none`)
only on the `"Invalid invoice data"` branch. -/
structure AnalyzeResult where
  status : String
  message : String
  invoice : Option Invoice
  deriving DecidableEq

/-- Decimal rendering of the float interpolated into the high-unit-price
message.  It models Python's `repr` for the integer and two-decimal values
that occur; no theorem depends on its exact output, only on the fixed
prefix of the message. -/
def pyShowFloat (q : ℚ) : String :=
  if q.den = 1 then toString q.num ++ ".0"
  else if (q * 100).den = 1 then
    let c := (q * 100).num
    let r := c % 100
    toString (c / 100) ++ "." ++ (if r % 10 = 0 then toString (r / 10) else toString r)
  else toString q.num ++ "/" ++ toString q.den

/-- The warning appended for a line item whose unit price is truthy and
greater than 100. -/
def highPriceMsg (p : ℚ) (desc : String) : String :=
  "High unit price detected: " ++ (pyShowFloat p ++ (" for " ++ desc))

/-- The summary warning appended when the model labels outliers. -/
def mlMsg : String :=
  "Potential fraud/anomalies detected via machine learning model."

/-- The per-item threshold loop: one warning per line item whose
`unit_price` key is present, truthy, and greater than 100. -/
def highPriceIssues (items : List AItem) : List String :=
  items.filterMap (fun it =>
    match it.unit_price with
    | some p => if p ≠ 0 ∧ 100 < p then some (highPriceMsg p it.description) else none
    | none => none)

/-- The line-item section of the analyzer: the per-item threshold
warnings, then the IsolationForest pass over the rows of the DataFrame
that have both numeric values (`dropna`).  If some but not all rows
survive `dropna`, writing the score column back into the full DataFrame
raises pandas' length-mismatch `ValueError`; when all rows survive, the
outlier rows (with their score and label columns) become
`anomalous_items` and a summary warning is appended. -/
def lineItemsAnalysis (m : MlModel) (items : List AItem) :
    Except PyErr (List String × Option (List AnomItem)) :=
  let highIssues := highPriceIssues items
  let numeric := items.filter (fun it => it.unit_price.isSome && it.quantity.isSome)
  if numeric.isEmpty then .ok (highIssues, none)
  else
    let pts := numeric.map (fun it => (it.unit_price.getD 0, it.quantity.getD 0))
    let scores := m.score pts
    if numeric.length ≠ items.length then .error .valueError
    else
      let labels := m.predict pts
      let rows := items.zip (scores.zip labels)
      let anomalies := rows.filter (fun r => r.2.2 = -1)
      if anomalies.isEmpty then .ok (highIssues, none)
      else
        .ok (highIssues ++ [mlMsg],
             some (anomalies.map (fun r => ⟨r.1, r.2.1, r.2.2⟩)))

/-- The date-window warning text. -/
def dateOutsideMsg : String := "Invoice date is outside the contract period."

/-- The unparseable-date warning text. -/
def dateParseMsg : String := "Unable to parse invoice date format."

/-- Date-validation section: runs only when both window bounds and the
`invoice_date` key are present; the bare `except` turns any
`strptime`/`datetime` failure into the parse warning. -/
def dateIssuesOf (inv : Invoice) (cs ce : Option Date) : List String :=
  match cs, ce, inv.invoice_date with
  | some s, some e, some ds =>
    match parseMDY ds with
    | some d => if dateLe s d && dateLe d e then [] else [dateOutsideMsg]
    | none => [dateParseMsg]
  | _, _, _ => []

/-- Assemble the analyzer's result from the mutated invoice and the
accumulated issues list. -/
def mkAnalyzeResult (inv : Invoice) (issues : List String)
    (anom : Option (List AnomItem)) : Except PyErr AnalyzeResult :=
  let inv1 := match anom with
    | some a => { inv with anomalous_items := some a }
    | none => inv
  if issues.isEmpty then .ok ⟨"success", "No issues detected", some inv1⟩
  else .ok ⟨"warning", "Analysis completed with warnings", some { inv1 with warnings := some issues }⟩

/-- Everything `analyze_invoice_for_fraud` does after the missing-field
check passed: date validation, then line-item analysis. -/
def analyzeAfterFieldCheck (m : MlModel) (inv : Invoice) (cs ce : Option Date) :
    Except PyErr AnalyzeResult :=
  let dateIssues := dateIssuesOf inv cs ce
  match inv.line_items with
  | some items =>
    if items.isEmpty then mkAnalyzeResult inv dateIssues none
    else
      match lineItemsAnalysis m items with
      | .error e => .error e
      | .ok (itemIssues, anom) => mkAnalyzeResult inv (dateIssues ++ itemIssues) anom
  | none => mkAnalyzeResult inv dateIssues none

/-- `analyze_invoice_for_fraud(invoice, contract_start, contract_end)`. -/
def analyzeInvoiceForFraud (m : MlModel) (inv : Invoice) (cs ce : Option Date) :
    Except PyErr AnalyzeResult :=
  if invoiceIsEmpty inv then .ok ⟨"error", "Invalid invoice data", none⟩
  else
    let missing := missingFields inv
    if missing.isEmpty then analyzeAfterFieldCheck m inv cs ce
    else .ok ⟨"warning", "Missing required fields: " ++ String.intercalate ", " missing, some inv⟩

/-- The warnings list of the invoice inside an analyzer result (empty
when the result carries no invoice or the invoice has no warnings key). -/
def resultWarnings (r : AnalyzeResult) : List String :=
  match r.invoice with
  | some inv => inv.warnings.getD []
  | none => []

/-- A trivial concrete model oracle used to instantiate theorems (scores
everything 0, labels everything an inlier). -/
def mZero : MlModel :=
  ⟨fun pts => pts.map (fun _ => 0), fun pts => pts.map (fun _ => 1)⟩

/-! ## The AI-assisted extractor `_extract_with_ai` / `_extract_with_regex` -/

/-- A parsed JSON value, the codomain of the `json.loads` oracle. -/
inductive PyJson where
  | null
  | bool (b : Bool)
  | num (q : ℚ)
  | str (s : String)
  | arr (xs : List PyJson)
  | obj (kvs : List (String × PyJson))

/-- A line item reconstructed by the regex fallback (all three values
always present). -/
structure RItem where
  description : String
  quantity : ℚ
  unit_price : ℚ
  deriving DecidableEq

/-- The dict built by `_extract_with_regex`; `line_items` is always set. -/
structure RegexRecord where
  invoice_number : Option String := none
  invoice_date : Option String := none
  supplier_name : Option String := none
  tax_id : Option String := none
  bank_account : Option String := none
  total_amount : Option ℚ := none
  line_items : List RItem := []
  deriving DecidableEq

/-- Consume an exact literal character sequence. -/
def eatLit (lit : List Char) (cs : List Char) : Option (List Char) :=
  if lit.isPrefixOf cs then some (cs.drop lit.length) else none

/-- Consume `\s*` (greedy; always followed by a non-whitespace literal in
the patterns below, so maximal munch is exact). -/
def eatWs (cs : List Char) : List Char :=
  cs.dropWhile isPySpace

/-- Consume `"([^"]*)"`: an opening quote, a maximal quote-free run, a
closing quote; returns the captured run. -/
def eatQuoted (cs : List Char) : Option (String × List Char) :=
  match cs with
  | '"' :: rest =>
    let content := rest.takeWhile (· ≠ '"')
    match rest.drop content.length with
    | '"' :: rest2 => some (String.mk content, rest2)
    | _ => none
  | _ => none

/-- Consume `(\d+\.?\d*)`: a nonempty digit run, an optional dot, another
digit run; returns the captured literal. -/
def eatNum (cs : List Char) : Option (List Char × List Char) :=
  let ds := cs.takeWhile isDigitChar
  if ds.isEmpty then none
  else
    match cs.drop ds.length with
    | '.' :: rest =>
      let fs := rest.takeWhile isDigitChar
      some (ds ++ '.' :: fs, rest.drop fs.length)
    | rest => some (ds, rest)

/-- Anchored matcher for `"key"\s*:\s*"([^"]+)"` (note the `+`: the
captured value must be nonempty). -/
def matchKeyStrAt (key : List Char) (cs : List Char) : Option String := do
  let cs1 ← eatLit ('"' :: key ++ ['"']) cs
  let cs2 ← eatLit [':'] (eatWs cs1)
  let (v, _) ← eatQuoted (eatWs cs2)
  if v.data.isEmpty then none else some v

/-- `re.search(r'"key"\s*:\s*"([^"]+)"', s)`, group 1. -/
def searchKeyStr (key : String) (s : String) : Option String :=
  scanPositions (matchKeyStrAt key.data) s.data

/-- Anchored matcher for `"key"\s*:\s*(\d+\.?\d*)`. -/
def matchKeyNumAt (key : List Char) (cs : List Char) : Option (List Char) := do
  let cs1 ← eatLit ('"' :: key ++ ['"']) cs
  let cs2 ← eatLit [':'] (eatWs cs1)
  let (v, _) ← eatNum (eatWs cs2)
  some v

/-- `re.search(r'"key"\s*:\s*(\d+\.?\d*)', s)`, group 1. -/
def searchKeyNum (key : String) (s : String) : Option (List Char) :=
  scanPositions (matchKeyNumAt key.data) s.data

/-- Anchored matcher for one description/quantity/unit_price triple
`"description"\s*:\s*"([^"]*)"\s*,\s*"quantity"\s*:\s*(\d+\.?\d*)\s*,\s*"unit_price"\s*:\s*(\d+\.?\d*)`;
returns the reconstructed item and the remainder after the match. -/
def matchTripleAt (cs : List Char) : Option (RItem × List Char) := do
  let c1 ← eatLit "\"description\"".data cs
  let c2 ← eatLit [':'] (eatWs c1)
  let (desc, c3) ← eatQuoted (eatWs c2)
  let c4 ← eatLit [','] (eatWs c3)
  let c5 ← eatLit "\"quantity\"".data (eatWs c4)
  let c6 ← eatLit [':'] (eatWs c5)
  let (qty, c7) ← eatNum (eatWs c6)
  let c8 ← eatLit [','] (eatWs c7)
  let c9 ← eatLit "\"unit_price\"".data (eatWs c8)
  let c10 ← eatLit [':'] (eatWs c9)
  let (price, c11) ← eatNum (eatWs c10)
  some (⟨desc, pyFloatCore qty, pyFloatCore price⟩, c11)

/-- `re.finditer` with the triple pattern: non-overlapping leftmost
matches, continuing after each match (fuel = input length: every match
consumes at least one character). -/
def findTriplesAux : Nat → List Char → List RItem
  | 0, _ => []
  | _ + 1, [] => []
  | fuel + 1, c :: rest =>
    match matchTripleAt (c :: rest) with
    | some (it, rem) => it :: findTriplesAux fuel rem
    | none => findTriplesAux fuel rest

/-- All description/quantity/unit_price triples in the text, in order. -/
def findTriples (s : String) : List RItem :=
  findTriplesAux s.data.length s.data

/-- `_extract_with_regex(json_str)`: per-field regex probes plus the
reconstruction of `line_items` from the triples. -/
def extractWithRegex (json_str : String) : RegexRecord :=
  { invoice_number := searchKeyStr "invoice_number" json_str
    invoice_date := searchKeyStr "invoice_date" json_str
    supplier_name := searchKeyStr "supplier_name" json_str
    tax_id := searchKeyStr "tax_id" json_str
    bank_account := searchKeyStr "bank_account" json_str
    total_amount := (searchKeyNum "total_amount" json_str).map pyFloatCore
    line_items := findTriples json_str }

/-- First index at which `pat` occurs in `cs`. -/
def findSubIdx (pat : List Char) : List Char → Option Nat
  | [] => if pat.isEmpty then some 0 else none
  | c :: rest =>
    if pat.isPrefixOf (c :: rest) then some 0
    else (findSubIdx pat rest).map (· + 1)

/-- The fenced-code-block probe
searching for three backticks, an optional `json` tag, a lazy body, and
three closing backticks; returns the body between the fences (the
surrounding `\s*` of the pattern only shaves whitespace that the
subsequent `.strip()` removes anyway). -/
def searchFenced (s : String) : Option String :=
  let fence := ['`', '`', '`']
  match findSubIdx fence s.data with
  | none => none
  | some i =>
    let after := s.data.drop (i + 3)
    let after2 := if "json".data.isPrefixOf after then after.drop 4 else after
    match findSubIdx fence after2 with
    | none => none
    | some j => some (String.mk (after2.take j))

/-- The `json_str` that `_extract_with_ai` selects for parsing: the
stripped fenced-block body when the reply contains a fenced code block,
otherwise the stripped reply itself. -/
def aiJsonStr (ai_response : String) : String :=
  match searchFenced ai_response with
  | some g => pyStrip g
  | none => pyStrip ai_response

/-- The parsing tail of `_extract_with_ai`, from the model's reply text
on: pick the fenced block if present (else the whole reply), strip it,
try `json.loads` (an oracle, since the source delegates to the standard
library), and on failure fall back to `_extract_with_regex`.  The value
is the `{"data": ..., "raw_response": ...}` dict. -/
def extractWithAi (jsonLoads : String → Option PyJson) (ai_response : String) :
    (PyJson ⊕ RegexRecord) × String :=
  let json_str := aiJsonStr ai_response
  match jsonLoads json_str with
  | some j => (.inl j, ai_response)
  | none => (.inr (extractWithRegex json_str), ai_response)

/-! ## The document processor `process_document` -/

/-- Structured data attached to a processing result: from the heuristic
extractor or from the AI extractor. -/
inductive Structured where
  | fromText (r : HRecord)
  | fromAi (d : PyJson ⊕ RegexRecord)

/-- A result dict of the document processor.  Absent keys are `none`; in
particular the no-file error carries no `method` key. -/
structure DocResult where
  status : String
  method : Option String := none
  message : Option String := none
  raw_text : Option String := none
  structured_data : Option Structured := none
  formatted_text : Option String := none
  ai_extracted_text : Option String := none

/-- Oracle outcomes for the image path: `pytesseract.image_to_string`
(or the exception raised while decoding/OCRing). -/
structure ImgEnv where
  ocrText : Except String String

/-- Oracle outcomes for the PDF path: the text `fitz` extracts joined
over all pages (or the exception it raises), and the OCR text of the
first rasterized page (or the exception raised by `convert_from_bytes` /
`pytesseract`, including the out-of-range access when no page exists). -/
structure PdfEnv where
  pdfText : Except String String
  ocrText : Except String String

/-- Oracle outcomes for the MarkItDown path: library availability, the
markdown conversion (or its exception, including file I/O), the session
API key, and the chat-completion reply content (or the network/credential
exception). -/
structure MdEnv where
  available : Bool
  converted : Except String String
  apiKey : String
  aiReply : Except String String

/-- `process_image_ocr`. -/
def processImageOcr (env : ImgEnv) : DocResult :=
  match env.ocrText with
  | .error e =>
    { status := "error", method := some "ocr",
      message := some ("Error processing image: " ++ e) }
  | .ok t =>
    { status := "success", method := some "ocr", raw_text := some t,
      structured_data := some (.fromText (extractInvoiceData t)),
      formatted_text := some t }

/-- `process_pdf`: direct text extraction first; OCR of the first page
when the extracted text strips to empty; any exception is caught and
tagged `pdf_processing`. -/
def processPdf (env : PdfEnv) : DocResult :=
  match env.pdfText with
  | .error e =>
    { status := "error", method := some "pdf_processing",
      message := some ("Error processing PDF: " ++ e) }
  | .ok t =>
    if pyStrip t = "" then
      match env.ocrText with
      | .error e =>
        { status := "error", method := some "pdf_processing",
          message := some ("Error processing PDF: " ++ e) }
      | .ok t2 =>
        { status := "success", method := some "ocr", raw_text := some t2,
          structured_data := some (.fromText (extractInvoiceData t2)),
          formatted_text := some t2 }
    else
      { status := "success", method := some "text_extraction", raw_text := some t,
        structured_data := some (.fromText (extractInvoiceData t)),
        formatted_text := some t }

/-- `process_with_markitdown`: unavailable-library error, conversion,
key check (truthiness of the session key), AI extraction; every result
is tagged `markitdown`. -/
def processWithMarkitdown (jsonLoads : String → Option PyJson) (env : MdEnv) : DocResult :=
  if !env.available then
    { status := "error", method := some "markitdown",
      message := some "MarkItDown library is not installed. Please install it to use this feature." }
  else
    match env.converted with
    | .error e =>
      { status := "error", method := some "markitdown",
        message := some ("Error processing with MarkItDown: " ++ e) }
    | .ok md =>
      if env.apiKey = "" then
        { status := "warning", method := some "markitdown", raw_text := some md,
          message := some "DeepSeek API key not provided. Only markdown conversion is available." }
      else
        match env.aiReply with
        | .error e =>
          { status := "error", method := some "markitdown",
            message := some ("Error processing with MarkItDown: " ++ e) }
        | .ok reply =>
          let ex := extractWithAi jsonLoads reply
          { status := "success", method := some "markitdown", raw_text := some md,
            structured_data := some (.fromAi ex.1),
            formatted_text := some md, ai_extracted_text := some ex.2 }

/-- The image extensions dispatched to OCR. -/
def imageExtensions : List String :=
  ["png", "jpg", "jpeg", "bmp", "gif", "tiff"]

/-- An uploaded file: its name plus the oracle outcomes of whichever
processing path its extension selects. -/
structure UploadEnv where
  name : String
  img : ImgEnv
  pdf : PdfEnv
  md : MdEnv

/-- `uploaded_file.name.split('.')[-1].lower()`. -/
def fileExtension (name : String) : String :=
  pyLower (String.mk ((splitOnChar '.' name.data).getLastD []))

/-- `process_document`: dispatch on the file extension (`none` is the
falsy no-upload case). -/
def processDocument (jsonLoads : String → Option PyJson) (inp : Option UploadEnv) : DocResult :=
  match inp with
  | none => { status := "error", message := some "No file uploaded" }
  | some env =>
    let ext := fileExtension env.name
    if ext ∈ imageExtensions then processImageOcr env.img
    else if ext = "pdf" then processPdf env.pdf
    else processWithMarkitdown jsonLoads env.md

/-- A concrete `json.loads` oracle that always fails, for witnesses. -/
def jlNone : String → Option PyJson := fun _ => none

/-! ## Helper lemmas -/

/-- True-by-membership test: the six present-key bits of the analyzer. -/
def allSixPresent (inv : Invoice) : Bool :=
  inv.invoice_number.isSome && inv.supplier_name.isSome && inv.invoice_date.isSome &&
    inv.tax_id.isSome && inv.bank_account.isSome && inv.total_amount.isSome

theorem method_of_processImageOcr (env : ImgEnv) :
    (processImageOcr env).method = some "ocr" := by
  unfold processImageOcr
  split <;> rfl

theorem method_of_processPdf (env : PdfEnv) :
    (processPdf env).method = some "pdf_processing" ∨ (processPdf env).method = some "ocr" ∨
      (processPdf env).method = some "text_extraction" := by
  unfold processPdf
  split
  · exact Or.inl rfl
  · split
    · split
      · exact Or.inl rfl
      · exact Or.inr (Or.inl rfl)
    · exact Or.inr (Or.inr rfl)

theorem method_of_processWithMarkitdown (jl : String → Option PyJson) (env : MdEnv) :
    (processWithMarkitdown jl env).method = some "markitdown" := by
  unfold processWithMarkitdown
  split
  · rfl
  · split
    · rfl
    · split
      · rfl
      · split <;> rfl

theorem strData_append (a b : String) : (a ++ b).data = a.data ++ b.data := by
  cases a
  cases b
  rfl

theorem takeWhile_all (p : Char → Bool) (cs : List Char) :
    (cs.takeWhile p).all p = true := by
  induction cs with
  | nil => rfl
  | cons c rest ih =>
    rw [List.takeWhile_cons]
    split
    · rw [List.all_cons]
      simp [*]
    · rfl

theorem all_take (p : Char → Bool) (n : Nat) (cs : List Char) (h : cs.all p = true) :
    (cs.take n).all p = true := by
  rw [List.all_eq_true] at h ⊢
  exact fun x hx => h x (List.take_subset n cs hx)

theorem all_of_imp {p q : Char → Bool} (h : ∀ c, p c = true → q c = true)
    (cs : List Char) (hc : cs.all p = true) : cs.all q = true := by
  rw [List.all_eq_true] at hc ⊢
  exact fun x hx => h x (hc x hx)

theorem takeWhile_eq_self_of_all (p : Char → Bool) (cs : List Char)
    (h : cs.all p = true) : cs.takeWhile p = cs := by
  induction cs with
  | nil => rfl
  | cons c rest ih =>
    rw [List.all_cons, Bool.and_eq_true] at h
    rw [List.takeWhile_cons, if_pos h.1, ih h.2]

theorem dropWhile_eq_nil_of_all (p : Char → Bool) (cs : List Char)
    (h : cs.all p = true) : cs.dropWhile p = [] := by
  induction cs with
  | nil => rfl
  | cons c rest ih =>
    rw [List.all_cons, Bool.and_eq_true] at h
    rw [List.dropWhile_cons, if_pos h.1]
    exact ih h.2

theorem takeWhile_append_of_all (p : Char → Bool) (l r : List Char)
    (h : l.all p = true) : (l ++ r).takeWhile p = l ++ r.takeWhile p := by
  induction l with
  | nil => rfl
  | cons c rest ih =>
    rw [List.all_cons, Bool.and_eq_true] at h
    rw [List.cons_append, List.takeWhile_cons, if_pos h.1, ih h.2]
    rfl

theorem dropWhile_append_of_all (p : Char → Bool) (l r : List Char)
    (h : l.all p = true) : (l ++ r).dropWhile p = r.dropWhile p := by
  induction l with
  | nil => rfl
  | cons c rest ih =>
    rw [List.all_cons, Bool.and_eq_true] at h
    rw [List.cons_append, List.dropWhile_cons, if_pos h.1]
    exact ih h.2

theorem digit_toNat_le (c : Char) (h : isDigitChar c = true) :
    48 ≤ c.toNat ∧ c.toNat ≤ 57 := by
  unfold isDigitChar at h
  rw [Bool.and_eq_true, decide_eq_true_eq, decide_eq_true_eq] at h
  exact h

theorem digit_ne_comma (c : Char) (h : isDigitChar c = true) : c ≠ ',' := by
  intro he
  subst he
  exact absurd h (by decide)

theorem digit_ne_dot_b (c : Char) (h : isDigitChar c = true) :
    decide (c ≠ '.') = true := by
  rw [decide_eq_true_eq]
  intro he
  subst he
  exact absurd h (by decide)

theorem replaceComma_digits (cs : List Char) (h : cs.all isDigitChar = true) :
    replaceComma cs = cs := by
  induction cs with
  | nil => rfl
  | cons c rest ih =>
    rw [List.all_cons, Bool.and_eq_true] at h
    unfold replaceComma at ih ⊢
    rw [List.map_cons, if_neg (digit_ne_comma c h.1), ih h.2]

theorem natOfDigits_lt (cs : List Char) (h : cs.all isDigitChar = true) :
    natOfDigits cs < 10 ^ cs.length := by
  induction cs with
  | nil => simp [natOfDigits]
  | cons c rest ih =>
    rw [List.all_cons, Bool.and_eq_true] at h
    have hc : c.toNat - 48 ≤ 9 := by
      have := digit_toNat_le c h.1
      omega
    have hr := ih h.2
    rw [natOfDigits, List.length_cons, pow_succ]
    nlinarith

theorem pyFloatCore_digits (ds : List Char) (h : ds.all isDigitChar = true) :
    pyFloatCore ds = (natOfDigits ds : ℚ) := by
  unfold pyFloatCore
  have hall : ds.all (fun c => decide (c ≠ '.')) = true :=
    all_of_imp digit_ne_dot_b ds h
  rw [takeWhile_eq_self_of_all _ _ hall, dropWhile_eq_nil_of_all _ _ hall]

theorem natOfDigits_cast_lt (ds : List Char) (h : ds.all isDigitChar = true)
    (hlen : ds.length ≤ 3) : (natOfDigits ds : ℚ) ≤ 999 := by
  have h1 : natOfDigits ds < 10 ^ ds.length := natOfDigits_lt ds h
  have h2 : (10 : ℕ) ^ ds.length ≤ 10 ^ 3 := Nat.pow_le_pow_right (by norm_num) hlen
  have : natOfDigits ds ≤ 999 := by omega
  exact_mod_cast this

theorem group_value_lt (ds : List Char) (hds : ds.all isDigitChar = true)
    (hlen : ds.length ≤ 3) :
    ∀ tail : List Char,
      (tail = [] ∨
        ∃ s a b, tail = [s, a, b] ∧ (s = '.' ∨ s = ',') ∧
          isDigitChar a = true ∧ isDigitChar b = true) →
      pyFloatCore (replaceComma (ds ++ tail)) < 1000 := by
  intro tail htail
  have hint : (natOfDigits ds : ℚ) ≤ 999 := natOfDigits_cast_lt ds hds hlen
  rcases htail with h0 | ⟨s, a, b, rfl, hs, ha, hb⟩
  · subst h0
    rw [List.append_nil, replaceComma_digits ds hds, pyFloatCore_digits ds hds]
    linarith
  · have hrc : replaceComma (ds ++ [s, a, b]) = ds ++ '.' :: [a, b] := by
      have happ : replaceComma (ds ++ [s, a, b]) = replaceComma ds ++ replaceComma [s, a, b] :=
        List.map_append _ _ _
      rw [happ, replaceComma_digits ds hds]
      have hsd : (if s = ',' then '.' else s) = '.' := by
        rcases hs with rfl | rfl <;> simp
      simp only [replaceComma, List.map_cons, List.map_nil, hsd,
        if_neg (digit_ne_comma a ha), if_neg (digit_ne_comma b hb)]
    rw [hrc]
    have hallne : ds.all (fun c => decide (c ≠ '.')) = true :=
      all_of_imp digit_ne_dot_b ds hds
    unfold pyFloatCore
    rw [takeWhile_append_of_all _ _ _ hallne, dropWhile_append_of_all _ _ _ hallne]
    rw [show (('.' :: [a, b]).takeWhile (fun c => decide (c ≠ '.'))) = [] from rfl]
    rw [show (('.' :: [a, b]).dropWhile (fun c => decide (c ≠ '.'))) = '.' :: [a, b] from rfl]
    simp only [List.append_nil]
    have hfrac : (natOfDigits [a, b] : ℚ) ≤ 99 := by
      have h1 : natOfDigits [a, b] < 10 ^ ([a, b] : List Char).length :=
        natOfDigits_lt [a, b] (by rw [List.all_cons, List.all_cons]; simp [ha, hb])
      have : natOfDigits [a, b] ≤ 99 := by
        simp only [List.length_cons, List.length_nil] at h1
        omega
      exact_mod_cast this
    have hpow : ((10 : ℚ)) ^ ([a, b] : List Char).length = 100 := by norm_num
    rw [hpow]
    have hdiv : (natOfDigits [a, b] : ℚ) / 100 ≤ 99 / 100 := by gcongr
    linarith

theorem matchTotalAt_lt (cs : List Char) (g : List Char)
    (h : matchTotalAt cs = some g) : pyFloatCore (replaceComma g) < 1000 := by
  unfold matchTotalAt at h
  simp only at h
  have hds : (((skipOneWs (skipDollar cs)).takeWhile isDigitChar).take 3).all isDigitChar = true :=
    all_take _ _ _ (takeWhile_all _ _)
  have hlen : (((skipOneWs (skipDollar cs)).takeWhile isDigitChar).take 3).length ≤ 3 := by
    rw [List.length_take]
    exact min_le_left _ _
  split at h
  · exact absurd h (by simp)
  · split at h
    · split at h
      · rw [Option.some_inj] at h
        subst h
        rename_i s a b rest heq hcond
        rw [Bool.and_eq_true, Bool.and_eq_true, Bool.or_eq_true,
          decide_eq_true_eq, decide_eq_true_eq] at hcond
        exact group_value_lt _ hds hlen _ (Or.inr ⟨s, a, b, rfl, hcond.1.1, hcond.1.2, hcond.2⟩)
      · rw [Option.some_inj] at h
        subst h
        have := group_value_lt _ hds hlen [] (Or.inl rfl)
        rwa [List.append_nil] at this
    · rw [Option.some_inj] at h
      subst h
      have := group_value_lt _ hds hlen [] (Or.inl rfl)
      rwa [List.append_nil] at this

theorem scanPositions_subterm {α : Type} (m : List Char → Option α) (cs : List Char) (r : α)
    (h : scanPositions m cs = some r) : ∃ t, m t = some r := by
  induction cs with
  | nil => exact ⟨[], h⟩
  | cons c rest ih =>
    rw [scanPositions] at h
    split at h
    · rename_i r2 heq
      rw [Option.some_inj] at h
      subst h
      exact ⟨c :: rest, heq⟩
    · exact ih h

theorem findSome?_subterm {α β : Type} (f : α → Option β) (l : List α) (b : β)
    (h : l.findSome? f = some b) : ∃ a, f a = some b := by
  induction l with
  | nil => exact absurd h (by simp)
  | cons a rest ih =>
    rw [List.findSome?_cons] at h
    split at h
    · rename_i b2 heq
      rw [Option.some_inj] at h
      subst h
      exact ⟨a, heq⟩
    · exact ih h

theorem searchTotal_lt (s : String) (g : List Char) (h : searchTotal s = some g) :
    pyFloatCore (replaceComma g) < 1000 := by
  obtain ⟨t, ht⟩ := scanPositions_subterm _ _ _ h
  exact matchTotalAt_lt t g ht

theorem searchTotalLines_lt (lines : List String) (i : Nat) (line : String) (g : List Char)
    (h : searchTotalLines lines i line = some g) : pyFloatCore (replaceComma g) < 1000 := by
  unfold searchTotalLines at h
  split at h
  · rename_i g2 heq
    rw [Option.some_inj] at h
    subst h
    exact searchTotal_lt _ _ heq
  · obtain ⟨l2, hl2⟩ := findSome?_subterm _ _ _ h
    exact searchTotal_lt _ _ hl2

/-- Invariant of the field loop for C7: any total amount stored so far is
below 1000. -/
def TotalSmall (inv : HRecord) : Prop :=
  ∀ q, inv.total_amount = some q → q < 1000

theorem fieldStep_totalSmall (lines : List String) (i : Nat) (line : String) (inv : HRecord)
    (h : TotalSmall inv) : TotalSmall (fieldStep lines i line inv) := by
  intro q hq
  simp only [fieldStep] at hq
  repeat' split at hq
  all_goals
    first
      | exact h q hq
      | (rename_i g hg
         have hq2 : some (pyFloatCore (replaceComma g)) = some q := hq
         rw [Option.some_inj] at hq2
         subst hq2
         exact searchTotalLines_lt _ _ _ _ hg)

theorem foldl_fieldStep_totalSmall (lines : List String) (l : List (Nat × String))
    (inv : HRecord) (h : TotalSmall inv) :
    TotalSmall (l.foldl (fun acc p => fieldStep lines p.1 p.2 acc) inv) := by
  induction l generalizing inv with
  | nil => exact h
  | cons p rest ih =>
    rw [List.foldl_cons]
    exact ih _ (fieldStep_totalSmall lines p.1 p.2 inv h)

theorem searchDigits_spec (s g : String) (h : searchDigits s = some g) :
    g.data ≠ [] ∧ g.data.all isDigitChar = true := by
  obtain ⟨t, ht⟩ := scanPositions_subterm _ _ _ h
  unfold matchDigitsAt at ht
  split at ht
  · rename_i c rest
    split at ht
    · rename_i hc
      rw [Option.some_inj] at ht
      subst ht
      refine ⟨by simp, ?_⟩
      rw [show (String.mk (c :: rest.takeWhile isDigitChar)).data = c :: rest.takeWhile isDigitChar from rfl]
      rw [List.all_cons, hc, Bool.true_and]
      exact takeWhile_all _ _
    · exact absurd ht (by simp)
  · exact absurd ht (by simp)

/-- Invariant of the field loop for C8: any stored invoice number is a
nonempty all-digit string. -/
def InvNumDigits (inv : HRecord) : Prop :=
  ∀ s, inv.invoice_number = some s → s.data ≠ [] ∧ s.data.all isDigitChar = true

theorem fieldStep_invNumDigits (lines : List String) (i : Nat) (line : String) (inv : HRecord)
    (h : InvNumDigits inv) : InvNumDigits (fieldStep lines i line inv) := by
  intro s hs
  simp only [fieldStep] at hs
  repeat' split at hs
  all_goals
    first
      | exact h s hs
      | (rename_i g hg
         have hs2 : some g = some s := hs
         rw [Option.some_inj] at hs2
         subst hs2
         exact searchDigits_spec _ _ hg)

theorem foldl_fieldStep_invNumDigits (lines : List String) (l : List (Nat × String))
    (inv : HRecord) (h : InvNumDigits inv) :
    InvNumDigits (l.foldl (fun acc p => fieldStep lines p.1 p.2 acc) inv) := by
  induction l generalizing inv with
  | nil => exact h
  | cons p rest ih =>
    rw [List.foldl_cons]
    exact ih _ (fieldStep_invNumDigits lines p.1 p.2 inv h)

theorem highPriceMsg_ne_dateOutside (p : ℚ) (d : String) :
    highPriceMsg p d ≠ dateOutsideMsg := by
  intro h
  have h1 : (highPriceMsg p d).data.head? = some 'H' := by
    unfold highPriceMsg
    rw [strData_append]
    rfl
  rw [h] at h1
  exact absurd h1 (by decide)

theorem mlMsg_ne_dateOutside : mlMsg ≠ dateOutsideMsg := by decide

theorem highPriceMsg_ne_dateParse (p : ℚ) (d : String) :
    highPriceMsg p d ≠ dateParseMsg := by
  intro h
  have h1 : (highPriceMsg p d).data.head? = some 'H' := by
    unfold highPriceMsg
    rw [strData_append]
    rfl
  rw [h] at h1
  exact absurd h1 (by decide)

theorem mlMsg_ne_dateParse : mlMsg ≠ dateParseMsg := by decide

theorem highPriceIssues_shape (items : List AItem) (s : String)
    (hs : s ∈ highPriceIssues items) : ∃ p d, s = highPriceMsg p d := by
  unfold highPriceIssues at hs
  rw [List.mem_filterMap] at hs
  obtain ⟨it, _, hit⟩ := hs
  split at hit
  · split at hit
    · rw [Option.some_inj] at hit
      exact ⟨_, _, hit.symm⟩
    · exact absurd hit (by simp)
  · exact absurd hit (by simp)

theorem lineItemsAnalysis_issue_shape (m : MlModel) (items : List AItem)
    (res : List String × Option (List AnomItem))
    (h : lineItemsAnalysis m items = .ok res) :
    ∀ s ∈ res.1, (∃ p d, s = highPriceMsg p d) ∨ s = mlMsg := by
  simp only [lineItemsAnalysis] at h
  split at h
  · rw [Except.ok.injEq] at h
    subst h
    intro s hs
    exact Or.inl (highPriceIssues_shape items s hs)
  · split at h
    · exact absurd h (by simp)
    · split at h
      · rw [Except.ok.injEq] at h
        subst h
        intro s hs
        exact Or.inl (highPriceIssues_shape items s hs)
      · rw [Except.ok.injEq] at h
        subst h
        intro s hs
        rw [List.mem_append] at hs
        rcases hs with hs | hs
        · exact Or.inl (highPriceIssues_shape items s hs)
        · rw [List.mem_singleton] at hs
          exact Or.inr hs

theorem mkAnalyzeResult_warnings (inv : Invoice) (issues : List String)
    (anom : Option (List AnomItem)) (r : AnalyzeResult)
    (h : mkAnalyzeResult inv issues anom = .ok r) (hw : inv.warnings = none) :
    (resultWarnings r = [] ∧ issues = []) ∨ resultWarnings r = issues := by
  simp only [mkAnalyzeResult] at h
  split at h
  · rename_i hempty
    rw [Except.ok.injEq] at h
    subst h
    left
    constructor
    · show ((match anom with
        | some a => { inv with anomalous_items := some a }
        | none => inv).warnings.getD []) = []
      cases anom <;> simp [hw]
    · cases issues with
      | nil => rfl
      | cons a l => exact absurd hempty (by simp)
  · rw [Except.ok.injEq] at h
    subst h
    right
    unfold resultWarnings
    rfl

theorem afterFieldCheck_warnings (m : MlModel) (inv : Invoice) (cs ce : Option Date)
    (r : AnalyzeResult)
    (h : analyzeAfterFieldCheck m inv cs ce = .ok r) (hw : inv.warnings = none) :
    (resultWarnings r = [] ∧ dateIssuesOf inv cs ce = []) ∨
    (∃ itemIssues, resultWarnings r = dateIssuesOf inv cs ce ++ itemIssues ∧
       ∀ s ∈ itemIssues, (∃ p d, s = highPriceMsg p d) ∨ s = mlMsg) := by
  simp only [analyzeAfterFieldCheck] at h
  split at h
  · rename_i items heq
    split at h
    · rcases mkAnalyzeResult_warnings _ _ _ _ h hw with h2 | h2
      · exact Or.inl h2
      · exact Or.inr ⟨[], by rw [h2, List.append_nil], by simp⟩
    · split at h
      · exact absurd h (by simp)
      · rename_i itemIssues anom hli
        rcases mkAnalyzeResult_warnings _ _ _ _ h hw with h2 | h2
        · rw [List.append_eq_nil] at h2
          exact Or.inl ⟨h2.1, h2.2.1⟩
        · exact Or.inr ⟨itemIssues, h2, lineItemsAnalysis_issue_shape m items (itemIssues, anom) hli⟩
  · rcases mkAnalyzeResult_warnings _ _ _ _ h hw with h2 | h2
    · exact Or.inl h2
    · exact Or.inr ⟨[], by rw [h2, List.append_nil], by simp⟩

theorem analyze_to_afterFieldCheck (m : MlModel) (inv : Invoice) (cs ce : Option Date)
    (hne : invoiceIsEmpty inv = false) (hmf : missingFields inv = []) :
    analyzeInvoiceForFraud m inv cs ce = analyzeAfterFieldCheck m inv cs ce := by
  have hm2 : (missingFields inv).isEmpty = true := by rw [hmf]; rfl
  simp [analyzeInvoiceForFraud, hne, hm2]

/-! ## Claims -/

/-- C1.  The claim that `analyze_invoice_for_fraud` never propagates an
exception fails on the code: with line items of which some but not all
carry both numeric values, `dropna` shrinks the fitted frame and writing
the score column back into the full frame raises pandas'
length-mismatch `ValueError`, which nothing in the analyzer catches.
This theorem evaluates the embedded analyzer at such an invoice (its
second line item has `unit_price = None`, exactly what the heuristic
extractor produces for an unmatched item) and shows the uncaught
exception. -/
theorem c1_analyzer_crash_on_partial_line_items :
    analyzeInvoiceForFraud mZero
      { invoice_number := some "61356291", supplier_name := some "Chapman, Kim and Green",
        invoice_date := some "09/06/2012", tax_id := some "949-84-9105",
        bank_account := some "GB50ACIE59715038217063", total_amount := some 40,
        line_items := some
          [⟨"With Hooks Stemware Storage", some 4, some 12⟩,
           ⟨"Stemless Wine Glasses", some 1, none⟩] }
      none none = .error .valueError := by
  rfl

/-- C2 counterexample.  As stated, the claim is false on the empty
record: every required field is absent, yet the analyzer's first guard
(`if not invoice`) returns `status = "error"`, not the missing-field
warning. -/
theorem c2_empty_record_counterexample :
    analyzeInvoiceForFraud mZero ({} : Invoice) none none =
      .ok ⟨"error", "Invalid invoice data", none⟩ ∧
    missingFields ({} : Invoice) ≠ [] ∧ ("error" : String) ≠ "warning" :=
  ⟨rfl, by decide, by decide⟩

/-- C2 (amended: for every NON-EMPTY record missing a required field).
The analyzer short-circuits with `status = "warning"`, a message listing
the missing fields in order, and the invoice returned unchanged (so no
warnings list is appended); the result does not depend on the outlier
model or on the contract window, i.e. neither is ever consulted. -/
theorem c2_missing_fields_short_circuit (m m2 : MlModel) (inv : Invoice)
    (cs ce cs2 ce2 : Option Date)
    (hne : invoiceIsEmpty inv = false) (hm : missingFields inv ≠ []) :
    analyzeInvoiceForFraud m inv cs ce =
      .ok ⟨"warning", "Missing required fields: " ++ String.intercalate ", " (missingFields inv),
           some inv⟩ ∧
    analyzeInvoiceForFraud m inv cs ce = analyzeInvoiceForFraud m2 inv cs2 ce2 := by
  have hm2 : (missingFields inv).isEmpty = false := by
    cases hmf : missingFields inv with
    | nil => exact absurd hmf hm
    | cons a l => rfl
  constructor <;> simp [analyzeInvoiceForFraud, hne, hm2]

/-- C2 witness: a one-field record, with the theorem applied at it. -/
theorem c2_missing_fields_short_circuit_witness :
    analyzeInvoiceForFraud mZero { invoice_number := some "42" } none none =
      .ok ⟨"warning",
           "Missing required fields: " ++
             String.intercalate ", " (missingFields { invoice_number := some "42" }),
           some { invoice_number := some "42" }⟩ ∧
    analyzeInvoiceForFraud mZero { invoice_number := some "42" } none none =
      analyzeInvoiceForFraud mZero { invoice_number := some "42" }
        (some ⟨2023, 1, 1⟩) (some ⟨2023, 12, 31⟩) :=
  c2_missing_fields_short_circuit mZero mZero _ none none _ _ (by decide) (by decide)

/-- C3 counterexample.  The claim that every `method` tag is one of
ocr / text_extraction / markup_conversion is false on the code: the
error branch of `process_pdf` tags its result `"pdf_processing"` (and
the markup path tags everything `"markitdown"`, not
`"markup_conversion"`). -/
theorem c3_method_tag_counterexample :
    (processDocument jlNone (some
      { name := "invoice.pdf", img := ⟨.ok ""⟩,
        pdf := ⟨.error "cannot open broken document", .ok ""⟩,
        md := ⟨false, .ok "", "", .ok ""⟩ })).method = some "pdf_processing" ∧
    "pdf_processing" ∉ (["ocr", "text_extraction", "markup_conversion"] : List String) :=
  ⟨rfl, by decide⟩

/-- C3 (amended).  Every result of `process_document` that carries a
`method` key carries one of the four tags the code actually uses:
`ocr`, `text_extraction`, `markitdown` (the markup-conversion path,
including its error results), or `pdf_processing` (the PDF path's error
results). -/
theorem c3_method_tags (jl : String → Option PyJson) (inp : Option UploadEnv) (mth : String)
    (h : (processDocument jl inp).method = some mth) :
    mth ∈ (["ocr", "text_extraction", "markitdown", "pdf_processing"] : List String) := by
  cases inp with
  | none => simp [processDocument] at h
  | some env =>
    simp only [processDocument] at h
    split at h
    · rw [method_of_processImageOcr] at h
      simp at h
      simp [h]
    · split at h
      · rcases method_of_processPdf env.pdf with h2 | h2 | h2 <;>
          · rw [h2] at h
            simp at h
            simp [h]
      · rw [method_of_processWithMarkitdown] at h
        simp at h
        simp [h]

/-- C3 witness: the theorem applied to a concrete image upload. -/
theorem c3_method_tags_witness :
    "ocr" ∈ (["ocr", "text_extraction", "markitdown", "pdf_processing"] : List String) :=
  c3_method_tags jlNone (some
    { name := "scan.png", img := ⟨.ok "Total 5"⟩, pdf := ⟨.ok "", .ok ""⟩,
      md := ⟨true, .ok "", "", .ok ""⟩ }) "ocr" rfl

/-- C4 counterexample.  The claim is false for extracted text that is
non-empty but whitespace-only: `process_pdf` tests the STRIPPED text, so
a PDF whose text layer yields `"\n"` (e.g. two empty pages joined with a
newline) goes to OCR even though extraction yielded non-empty text. -/
theorem c4_whitespace_text_counterexample :
    (processPdf ⟨.ok "\n", .ok "OCR RESULT"⟩).method = some "ocr" ∧ ("\n" : String) ≠ "" :=
  ⟨rfl, by decide⟩

/-- C4 (amended: non-empty AFTER stripping).  For every PDF whose direct
text extraction yields text with some non-whitespace character, the
result is `method = text_extraction`, and the OCR oracle is never
consulted (the result is identical for every OCR outcome). -/
theorem c4_text_extraction_no_ocr (t : String) (o o2 : Except String String)
    (h : pyStrip t ≠ "") :
    (processPdf ⟨.ok t, o⟩).method = some "text_extraction" ∧
    processPdf ⟨.ok t, o⟩ = processPdf ⟨.ok t, o2⟩ := by
  simp only [processPdf]
  rw [if_neg h, if_neg h]
  exact ⟨rfl, rfl⟩

/-- C4 witness: the theorem applied at concrete text and two different
OCR oracle outcomes. -/
theorem c4_text_extraction_no_ocr_witness :
    (processPdf ⟨.ok "Invoice no: 1", .error "ocr failed"⟩).method = some "text_extraction" ∧
    processPdf ⟨.ok "Invoice no: 1", .error "ocr failed"⟩ =
      processPdf ⟨.ok "Invoice no: 1", .ok "something else"⟩ :=
  c4_text_extraction_no_ocr "Invoice no: 1" _ _ (by decide)

/-- C5.  For EVERY model reply whose selected JSON candidate — the
fenced-block body when a fenced code block is present, the bare reply
otherwise (`aiJsonStr`, exactly what the code hands to `json.loads`) —
fails to parse, the parsing tail of `_extract_with_ai` returns (it is
total, hence never raises) the regex fallback applied to that candidate,
paired with the raw reply.  This covers both the reply with no fence and
no parsable JSON and the reply whose fenced body is unparsable. -/
theorem c5_unparsable_reply_falls_back (jl : String → Option PyJson) (ai : String)
    (h : jl (aiJsonStr ai) = none) :
    extractWithAi jl ai = (.inr (extractWithRegex (aiJsonStr ai)), ai) := by
  simp [extractWithAi, h]

/-- C5 witness: the theorem applied to a reply whose fenced block holds
unparsable prose and to a bare plain-prose reply; in both cases the
fallback yields the empty record (no field probe matches and no triple
is found). -/
theorem c5_unparsable_reply_falls_back_witness :
    (extractWithAi jlNone "```\nThe invoice is attached.\n```" =
      (.inr (extractWithRegex (aiJsonStr "```\nThe invoice is attached.\n```")),
       "```\nThe invoice is attached.\n```") ∧
     aiJsonStr "```\nThe invoice is attached.\n```" = "The invoice is attached." ∧
     extractWithRegex (aiJsonStr "```\nThe invoice is attached.\n```") = ({} : RegexRecord)) ∧
    (extractWithAi jlNone "No structured data could be read." =
      (.inr (extractWithRegex (aiJsonStr "No structured data could be read.")),
       "No structured data could be read.") ∧
     extractWithRegex (aiJsonStr "No structured data could be read.") = ({} : RegexRecord)) :=
  ⟨⟨c5_unparsable_reply_falls_back jlNone _ rfl, rfl, rfl⟩,
   ⟨c5_unparsable_reply_falls_back jlNone _ rfl, rfl⟩⟩

/-- C9.  On every input text the heuristic extractor's returned record
contains the `line_items` key (it is assigned unconditionally before the
item scan); and the embedding of the body is total — none of its
operations can raise, so the `except: return {}` path that would omit
the key is unreachable. -/
theorem c9_line_items_always_present (text : String) :
    (extractInvoiceData text).line_items.isSome = true := by
  rfl

/-- C10.  The analyzer's missing-field check is key membership, not
truthiness: whenever all six required fields are present as keys — with
any values, including empty strings and 0 — the missing list is empty
and the analysis proceeds past the check (to date validation and
line-item analysis, `analyzeAfterFieldCheck`). -/
theorem c10_membership_not_truthiness (m : MlModel) (inv : Invoice) (cs ce : Option Date)
    (h : allSixPresent inv = true) :
    missingFields inv = [] ∧
    analyzeInvoiceForFraud m inv cs ce = analyzeAfterFieldCheck m inv cs ce := by
  simp only [allSixPresent, Bool.and_eq_true] at h
  obtain ⟨⟨⟨⟨⟨h1, h2⟩, h3⟩, h4⟩, h5⟩, h6⟩ := h
  have hmf : missingFields inv = [] := by
    simp [missingFields, requiredFields, hasField, h1, h2, h3, h4, h5, h6]
  have hne : invoiceIsEmpty inv = false := by
    cases hx : inv.invoice_number with
    | none => rw [hx] at h1; exact absurd h1 (by decide)
    | some v => simp [invoiceIsEmpty, hx]
  have hm2 : (missingFields inv).isEmpty = true := by rw [hmf]; rfl
  refine ⟨hmf, ?_⟩
  simp [analyzeInvoiceForFraud, hne, hm2]

/-- C10 witness: all six keys present but every value falsy (empty
strings, amount 0); the theorem applied there. -/
theorem c10_membership_not_truthiness_witness :
    missingFields
      { invoice_number := some "", supplier_name := some "", invoice_date := some "",
        tax_id := some "", bank_account := some "", total_amount := some 0 } = [] ∧
    analyzeInvoiceForFraud mZero
      { invoice_number := some "", supplier_name := some "", invoice_date := some "",
        tax_id := some "", bank_account := some "", total_amount := some 0 }
      (some ⟨2023, 1, 1⟩) (some ⟨2023, 12, 31⟩) =
    analyzeAfterFieldCheck mZero
      { invoice_number := some "", supplier_name := some "", invoice_date := some "",
        tax_id := some "", bank_account := some "", total_amount := some 0 }
      (some ⟨2023, 1, 1⟩) (some ⟨2023, 12, 31⟩) :=
  c10_membership_not_truthiness mZero _ _ _ (by decide)

/-- C6.  With the contract window 2023-01-01 .. 2023-12-31 and all six
required fields present: an invoice dated `"02/15/2023"` yields a result
whose warnings never contain the date-window message (the only producers
of warnings besides the date check are the high-price and model messages,
which differ from it); an invoice dated `"02/15/2024"` yields the warning
`"Invoice date is outside the contract period."`; and an invoice date
`strptime` cannot parse as month/day/year yields
`"Unable to parse invoice date format."` instead. -/
theorem c6_contract_window_validation (m : MlModel) (inv : Invoice) (r : AnalyzeResult)
    (hall : missingFields inv = []) (hw : inv.warnings = none) :
    (inv.invoice_date = some "02/15/2023" →
      analyzeInvoiceForFraud m inv (some ⟨2023, 1, 1⟩) (some ⟨2023, 12, 31⟩) = .ok r →
      dateOutsideMsg ∉ resultWarnings r) ∧
    (inv.invoice_date = some "02/15/2024" →
      analyzeInvoiceForFraud m inv (some ⟨2023, 1, 1⟩) (some ⟨2023, 12, 31⟩) = .ok r →
      dateOutsideMsg ∈ resultWarnings r) ∧
    (∀ ds, inv.invoice_date = some ds → parseMDY ds = none →
      analyzeInvoiceForFraud m inv (some ⟨2023, 1, 1⟩) (some ⟨2023, 12, 31⟩) = .ok r →
      dateParseMsg ∈ resultWarnings r) := by
  refine ⟨?_, ?_, ?_⟩
  · intro hd hres
    have hne : invoiceIsEmpty inv = false := by simp [invoiceIsEmpty, hd]
    rw [analyze_to_afterFieldCheck m inv _ _ hne hall] at hres
    have hdi : dateIssuesOf inv (some ⟨2023, 1, 1⟩) (some ⟨2023, 12, 31⟩) = [] := by
      unfold dateIssuesOf
      rw [hd]
      rfl
    rcases afterFieldCheck_warnings m inv _ _ r hres hw with ⟨h1, _⟩ | ⟨ii, h1, hsh⟩
    · rw [h1]
      simp
    · rw [h1, hdi, List.nil_append]
      intro hmem
      rcases hsh _ hmem with ⟨p, d, heq⟩ | heq
      · exact highPriceMsg_ne_dateOutside p d heq.symm
      · exact mlMsg_ne_dateOutside heq.symm
  · intro hd hres
    have hne : invoiceIsEmpty inv = false := by simp [invoiceIsEmpty, hd]
    rw [analyze_to_afterFieldCheck m inv _ _ hne hall] at hres
    have hdi : dateIssuesOf inv (some ⟨2023, 1, 1⟩) (some ⟨2023, 12, 31⟩) = [dateOutsideMsg] := by
      unfold dateIssuesOf
      rw [hd]
      rfl
    rcases afterFieldCheck_warnings m inv _ _ r hres hw with ⟨_, h2⟩ | ⟨ii, h1, _⟩
    · rw [hdi] at h2
      exact absurd h2 (by simp)
    · rw [h1, hdi]
      exact List.mem_append_left _ (List.mem_singleton_self _)
  · intro ds hd hp hres
    have hne : invoiceIsEmpty inv = false := by simp [invoiceIsEmpty, hd]
    rw [analyze_to_afterFieldCheck m inv _ _ hne hall] at hres
    have hdi : dateIssuesOf inv (some ⟨2023, 1, 1⟩) (some ⟨2023, 12, 31⟩) = [dateParseMsg] := by
      unfold dateIssuesOf
      rw [hd]
      simp [hp]
    rcases afterFieldCheck_warnings m inv _ _ r hres hw with ⟨_, h2⟩ | ⟨ii, h1, _⟩
    · rw [hdi] at h2
      exact absurd h2 (by simp)
    · rw [h1, hdi]
      exact List.mem_append_left _ (List.mem_singleton_self _)

/-- The concrete invoice used to witness C6: all six required fields
present, dated 2024-02-15 against the 2023 contract window. -/
def c6Invoice : Invoice :=
  { invoice_number := some "1", supplier_name := some "Acme",
    invoice_date := some "02/15/2024", tax_id := some "1-2",
    bank_account := some "GB00X", total_amount := some 10 }

/-- C6 witness: the theorem applied at `c6Invoice` shows the date-window
warning in the record the analyzer actually returns. -/
theorem c6_contract_window_validation_witness :
    dateOutsideMsg ∈ resultWarnings
      ⟨"warning", "Analysis completed with warnings",
       some { c6Invoice with warnings := some [dateOutsideMsg] }⟩ :=
  (c6_contract_window_validation mZero c6Invoice
      ⟨"warning", "Analysis completed with warnings",
       some { c6Invoice with warnings := some [dateOutsideMsg] }⟩
      (by decide) rfl).2.1 rfl rfl

/-- C7.  The total-amount pattern caps the integer part at three digits,
so every total the heuristic extractor ever stores is below 1000 — a
total written as 1000 or more (without thousands separators) can never
be parsed in full.  Concretely, the line `"Total: 1234.56"` parses to
`total_amount = 123`, the truncated leading three digits. -/
theorem c7_total_amount_truncated :
    (∀ text q, (extractInvoiceData text).total_amount = some q → q < 1000) ∧
    (extractInvoiceData "Total: 1234.56").total_amount = some 123 := by
  constructor
  · intro text q hq
    have hinit : TotalSmall ({} : HRecord) := by
      intro q2 hq2
      exact absurd hq2 (by simp)
    exact foldl_fieldStep_totalSmall (pySplitlines text) (pySplitlines text).enum {} hinit q hq
  · rfl

/-- C7 witness: the theorem applied at the concrete truncating line. -/
theorem c7_total_amount_truncated_witness :
    (123 : ℚ) < 1000 ∧ (extractInvoiceData "Total: 1234.56").total_amount = some 123 :=
  ⟨c7_total_amount_truncated.1 "Total: 1234.56" 123 c7_total_amount_truncated.2,
   c7_total_amount_truncated.2⟩

/-- C8.  The invoice-number pattern is `\d+`: every invoice number the
extractor ever stores is a nonempty all-digit string (so never a full
alphanumeric token), and on the line `"invoice number: INV-2024-0099"`
it stores exactly the first digit run `"2024"`. -/
theorem c8_invoice_number_digit_run :
    (∀ text s, (extractInvoiceData text).invoice_number = some s →
      s.data ≠ [] ∧ s.data.all isDigitChar = true) ∧
    (extractInvoiceData "invoice number: INV-2024-0099").invoice_number = some "2024" := by
  constructor
  · intro text s hs
    have hinit : InvNumDigits ({} : HRecord) := by
      intro s2 hs2
      exact absurd hs2 (by simp)
    exact foldl_fieldStep_invNumDigits (pySplitlines text) (pySplitlines text).enum {} hinit s hs
  · rfl

/-- C8 witness: the theorem applied at the concrete alphanumeric token. -/
theorem c8_invoice_number_digit_run_witness :
    ("2024" : String).data ≠ [] ∧ ("2024" : String).data.all isDigitChar = true :=
  c8_invoice_number_digit_run.1 "invoice number: INV-2024-0099" "2024"
    c8_invoice_number_digit_run.2

end Invoices
